import Mathlib

/-!
Verification of the segment-occupancy calculator of the trips editor
(`TripsEditorApp._refresh_segments_view` in `editor_trips.py` and
`editor_trips_fixed.py`).

The calculator reads a trip record (a JSON-like dictionary) and produces one
row per consecutive pair of stops: `(stops[k], stops[k+1], used, free)`, where
`used` counts the retained bookings whose normalized index interval
`[low, high)` contains `k`, and `free = max(0, capacity - used) if capacity
else 0`.

We embed the JSON-like values the editor manipulates as `Value`, model the
Python built-ins the function uses (`str`, `int`, truthiness, `dict.get`,
dict comprehension with last-occurrence-wins key collision), and translate the
function body into `segmentsView` / `segmentsCore`.
-/

/-- JSON-like Python values as manipulated by the editor: `None`, booleans,
integers, strings, lists, and dicts (modelled as association lists; key
collisions resolve to the last occurrence, as in Python dict construction). -/
inductive Value where
  | vNull : Value
  | vBool : Bool → Value
  | vInt : Int → Value
  | vStr : String → Value
  | vList : List Value → Value
  | vDict : List (String × Value) → Value
deriving Repr

/-- A Python dict of string keys, as an association list in insertion order. -/
abbrev PyDict := List (String × Value)

/-- The apostrophe character used by Python repr of strings. -/
def pyQuote : String := String.singleton (Char.ofNat 39)

mutual

/-- Models Python `repr` on the embedded values (used by `str` on containers).
String escaping inside `repr` is simplified to plain single quotes; the
editor only ever compares `str` of top-level stop names, which are strings,
where `str` is the identity and `repr` is never consulted. -/
def pyRepr : Value → String
  | .vNull => "None"
  | .vBool b => if b then "True" else "False"
  | .vInt n => toString n
  | .vStr s => pyQuote ++ s ++ pyQuote
  | .vList xs => "[" ++ pyReprList xs ++ "]"
  | .vDict kvs => "\x7b" ++ pyReprDict kvs ++ "\x7d"

/-- Comma-separated `repr` of list elements. -/
def pyReprList : List Value → String
  | [] => ""
  | [x] => pyRepr x
  | x :: y :: xs => pyRepr x ++ ", " ++ pyReprList (y :: xs)

/-- Comma-separated `repr` of dict entries. -/
def pyReprDict : List (String × Value) → String
  | [] => ""
  | [(k, v)] => pyQuote ++ k ++ pyQuote ++ ": " ++ pyRepr v
  | (k, v) :: e :: kvs => pyQuote ++ k ++ pyQuote ++ ": " ++ pyRepr v ++ ", " ++ pyReprDict (e :: kvs)

end

/-- Models Python `str()`: identity on strings, `repr`-like rendering
otherwise. -/
def pyStr : Value → String
  | .vStr s => s
  | v => pyRepr v

/-- Models Python truthiness (`bool(v)`): `None`, `False`, `0`, `""`, `[]` and
`\x7b\x7d` are falsy, everything else truthy. -/
def pyTruthy : Value → Bool
  | .vNull => false
  | .vBool b => b
  | .vInt n => n != 0
  | .vStr s => s != ""
  | .vList xs => !xs.isEmpty
  | .vDict kvs => !kvs.isEmpty

/-- Models Python `int(v)` as a partial function: `none` stands for a raised
`TypeError`/`ValueError`. Integer strings parse after stripping whitespace;
other strings, `None`, lists and dicts fail. -/
def pyInt : Value → Option Int
  | .vInt n => some n
  | .vBool b => some (if b then 1 else 0)
  | .vStr s => s.trim.toInt?
  | _ => none

/-- Models `d.get(key, dflt)` on a Python dict built from an association list:
the last binding of a key wins, as in Python dict construction. -/
def dGet (d : PyDict) (key : String) (dflt : Value) : Value :=
  ((d.reverse.find? (fun p => p.1 == key)).map Prod.snd).getD dflt

/-- Models `isinstance(v, list)`. -/
def pyIsList : Value → Bool
  | .vList _ => true
  | _ => false

/-- The underlying list of a list value, `[]` otherwise (only consulted after
an `isinstance(..., list)` guard, or to model `bookings = []` normalization). -/
def asList : Value → List Value
  | .vList xs => xs
  | _ => []

/-- Models `int(capacityValue or 0)` with the surrounding
`try/except → capacity = 0` from the source: a falsy value is replaced by `0`
before conversion, and a failed conversion yields `0`. -/
def capValue (v : Value) : Int :=
  let w := if pyTruthy v then v else .vInt 0
  (pyInt w).getD 0

/-- `capacity = int(trip.get("capacity", 0) or 0)` (0 on exception). -/
def capacityOf (d : PyDict) : Int :=
  capValue (dGet d "capacity" (.vInt 0))

/-- `idx_map = \x7bstr(s): i for i, s in enumerate(stops)\x7d`: the name-to-index
association list, in stop order; lookup (`lookupIdx`) takes the last
occurrence, as a Python dict comprehension overwrites earlier bindings. -/
def idxMap (stops : List Value) : List (String × Nat) :=
  stops.enum.map (fun p => (pyStr p.2, p.1))

/-- Membership/lookup in `idx_map`: the binding written last wins. -/
def lookupIdx (m : List (String × Nat)) (key : String) : Option Nat :=
  (m.reverse.find? (fun p => p.1 == key)).map Prod.snd

/-- One iteration of the booking loop: resolve `str(b.get("from", ""))` and
`str(b.get("to", ""))` in `idx_map`; skip (`none`) when `b` is not a dict
(the `except: continue`), when either name is absent, or when both resolve to
the same index; otherwise normalize to `(min i j, max i j)`. -/
def bookingRange (m : List (String × Nat)) (b : Value) : Option (Nat × Nat) :=
  match b with
  | .vDict kvs =>
      let frm := pyStr (dGet kvs "from" (.vStr ""))
      let toName := pyStr (dGet kvs "to" (.vStr ""))
      match lookupIdx m frm, lookupIdx m toName with
      | some i, some j => if i = j then none else some (min i j, max i j)
      | _, _ => none
  | _ => none

/-- `ranges`: the normalized half-open intervals of the retained bookings. -/
def retainedRanges (stops : List Value) (bookings : List Value) : List (Nat × Nat) :=
  bookings.filterMap (bookingRange (idxMap stops))

/-- `used = sum(1 for a, c in ranges if a <= k < c)`. -/
def usedAt (ranges : List (Nat × Nat)) (k : Nat) : Nat :=
  ranges.countP (fun p => p.1 ≤ k && k < p.2)

/-- `free = max(0, capacity - used) if capacity else 0`. -/
def freeOf (capacity : Int) (used : Nat) : Int :=
  if capacity != 0 then max 0 (capacity - used) else 0

/-- One row inserted into the segments tree:
`(stops[k], stops[k + 1], used, free)`. -/
structure Row where
  fromStop : Value
  toStop : Value
  used : Nat
  free : Int

/-- The body of `_refresh_segments_view` after `capacity`, `stops` and
`bookings` have been read from the trip dict: empty output unless `stops` is a
list of length at least 2; non-list `bookings` is replaced by `[]`; one row
per segment index `k < len(stops) - 1`. -/
def segmentsCore (stopsV bookingsV : Value) (capacity : Int) : List Row :=
  match stopsV with
  | .vList xs =>
      if xs.length < 2 then []
      else
        let ranges := retainedRanges xs (asList bookingsV)
        (List.range (xs.length - 1)).map (fun k =>
          { fromStop := xs.getD k .vNull
            toStop := xs.getD (k + 1) .vNull
            used := usedAt ranges k
            free := freeOf capacity (usedAt ranges k) })
  | _ => []

/-- `_refresh_segments_view(trip)`, with the rows inserted into the tree as
output: `None` or a falsy (empty) trip dict yields no rows; otherwise the
trip's `stops`, `bookings` and `capacity` fields drive `segmentsCore`. -/
def segmentsView (trip : Option PyDict) : List Row :=
  match trip with
  | none => []
  | some d =>
      if d.isEmpty then []
      else segmentsCore (dGet d "stops" (.vList [])) (dGet d "bookings" (.vList []))
        (capacityOf d)

/-- The five-stop example trip `stops = [A,B,C,D,E]` of the spec. -/
def exStops : List Value :=
  [.vStr "A", .vStr "B", .vStr "C", .vStr "D", .vStr "E"]

/-- The example trip: one booking from `B` to `E` (indices 1 and 4). -/
def exTrip : PyDict :=
  [("stops", .vList exStops), ("capacity", .vInt 3),
    ("bookings", .vList [.vDict [("from", .vStr "B"), ("to", .vStr "E")]])]

/-- A three-stop trip with no bookings, used to witness C2. -/
def noBookTrip : PyDict :=
  [("stops", .vList [.vStr "A", .vStr "B", .vStr "C"]), ("capacity", .vInt 4),
    ("bookings", .vList [])]

/-- An overbooked two-stop trip: capacity 2, five bookings on one segment. -/
def overTrip : PyDict :=
  [("stops", .vList [.vStr "A", .vStr "B"]), ("capacity", .vInt 2),
    ("bookings", .vList [
      .vDict [("from", .vStr "A"), ("to", .vStr "B")],
      .vDict [("from", .vStr "B"), ("to", .vStr "A")],
      .vDict [("from", .vStr "A"), ("to", .vStr "B")],
      .vDict [("from", .vStr "A"), ("to", .vStr "B")],
      .vDict [("from", .vStr "A"), ("to", .vStr "B")]])]

/-- The three stops `[A, B, C]` used in several witnesses. -/
def abcStops : List Value := [.vStr "A", .vStr "B", .vStr "C"]

/-- The duplicated stop list `[A, B, A]` exercising C5. -/
def dupStops : List Value := [.vStr "A", .vStr "B", .vStr "A"]

/-- Exchanges the key names `from` and `to`, leaving other keys alone. -/
def swapKey (k : String) : String :=
  if k == "from" then "to" else if k == "to" then "from" else k

/-- A booking with its `from` and `to` fields exchanged (non-dict records are
left unchanged; the loop skips them either way). -/
def swapFT : Value → Value
  | .vDict kvs => .vDict (kvs.map (fun p => (swapKey p.1, p.2)))
  | v => v

/-- A permuted copy of `noBookTrip` with an extra irrelevant key. -/
def noBookTripShuffled : PyDict :=
  [("junk", .vNull), ("capacity", .vInt 4),
    ("stops", .vList [.vStr "A", .vStr "B", .vStr "C"]), ("bookings", .vList [])]

/-- A trip whose `stops` field is a string instead of a list. -/
def strStopsTrip : PyDict :=
  [("stops", .vStr "ABC"), ("capacity", .vInt 4),
    ("bookings", .vList [.vDict [("from", .vStr "A"), ("to", .vStr "B")]])]

/-- A trip with three stops and a string-valued `bookings` field. -/
def strBookingsTrip : PyDict :=
  [("stops", .vList [.vStr "A", .vStr "B", .vStr "C"]), ("capacity", .vInt 4),
    ("bookings", .vStr "oops")]

/-! ### Helper lemmas -/

/-- Reading the trip fields commutes with the early `if not trip` exit: an
empty dict yields default fields (`stops = []`), on which the core already
returns no rows. -/
theorem segmentsView_some (d : PyDict) :
    segmentsView (some d) =
      segmentsCore (dGet d "stops" (.vList [])) (dGet d "bookings" (.vList []))
        (capacityOf d) := by
  cases d with
  | nil => rfl
  | cons a l => rfl

/-- `segmentsCore` on a stop list of length at least 2, unfolded. -/
theorem segmentsCore_eq (xs : List Value) (bv : Value) (cap : Int)
    (h : ¬ xs.length < 2) :
    segmentsCore (.vList xs) bv cap =
      (List.range (xs.length - 1)).map (fun k =>
        { fromStop := xs.getD k .vNull
          toStop := xs.getD (k + 1) .vNull
          used := usedAt (retainedRanges xs (asList bv)) k
          free := freeOf cap (usedAt (retainedRanges xs (asList bv)) k) }) := by
  simp [segmentsCore, h]

/-- `segmentsCore` on a stop list of length below 2 returns no rows. -/
theorem segmentsCore_short (xs : List Value) (bv : Value) (cap : Int)
    (h : xs.length < 2) :
    segmentsCore (.vList xs) bv cap = [] := by
  simp [segmentsCore, h]

/-- `segmentsCore` only consults the bookings value through `asList`. -/
theorem segmentsCore_bookings_eq (sv bv₁ bv₂ : Value) (cap : Int)
    (h : asList bv₁ = asList bv₂) :
    segmentsCore sv bv₁ cap = segmentsCore sv bv₂ cap := by
  cases sv <;> simp [segmentsCore, h]

/-- Two bookings values inducing the same retained ranges over the same stop
list produce the same output. -/
theorem segmentsCore_ranges_congr (xs : List Value) (bv₁ bv₂ : Value) (cap : Int)
    (h : retainedRanges xs (asList bv₁) = retainedRanges xs (asList bv₂)) :
    segmentsCore (.vList xs) bv₁ cap = segmentsCore (.vList xs) bv₂ cap := by
  by_cases hl : xs.length < 2
  · rw [segmentsCore_short _ _ _ hl, segmentsCore_short _ _ _ hl]
  · rw [segmentsCore_eq _ _ _ hl, segmentsCore_eq _ _ _ hl, h]

/-! ### Claims -/

/-- **C1.** For every trip whose `stops` field is a list of length `n ≥ 2` and
every segment index `k < n - 1`, the `used` value of the `k`-th output row is
`usedAt (retainedRanges ...) k`, i.e. the number of retained bookings whose
normalized half-open interval `[low, high)` satisfies `low ≤ k < high`; the
single-booking `[1,4)`-over-5-stops instance is exhibited in the witness. -/
theorem used_counts_retained_intervals (d : PyDict) (xs : List Value) (k : Nat)
    (hstops : dGet d "stops" (.vList []) = .vList xs)
    (hlen : 2 ≤ xs.length) (hk : k < xs.length - 1) :
    ((segmentsView (some d))[k]?).map Row.used =
      some (usedAt (retainedRanges xs (asList (dGet d "bookings" (.vList [])))) k) := by
  rw [segmentsView_some, hstops, segmentsCore_eq _ _ _ (by omega),
    List.getElem?_map, List.getElem?_range hk]
  rfl

/-- Witness for C1 at the spec's example: the general theorem applied at
segment 2, plus the full `used` profile `[0, 1, 1, 1]` of the example. -/
theorem used_counts_retained_intervals_witness :
    ((segmentsView (some exTrip))[2]?).map Row.used =
      some (usedAt (retainedRanges exStops (asList (dGet exTrip "bookings" (.vList [])))) 2)
    ∧ (segmentsView (some exTrip)).map Row.used = [0, 1, 1, 1] :=
  ⟨used_counts_retained_intervals exTrip exStops 2 rfl (by decide) (by decide), rfl⟩

/-- **C2.** Whenever the trip's `stops` field is a list `xs`, the output has
exactly `xs.length - 1` rows (natural subtraction, i.e. `max 0 (n - 1)`); the
`k`-th row pairs `stops[k]` with `stops[k+1]` in stop order; fewer than 2
stops yield an empty output regardless of bookings and capacity; and with an
empty bookings list every row has `used = 0`. -/
theorem output_shape_and_order (d : PyDict) (xs : List Value)
    (hstops : dGet d "stops" (.vList []) = .vList xs) :
    (segmentsView (some d)).length = xs.length - 1
    ∧ (∀ k, k < xs.length - 1 →
        ((segmentsView (some d))[k]?).map (fun r => (r.fromStop, r.toStop)) =
          some (xs.getD k .vNull, xs.getD (k + 1) .vNull))
    ∧ (xs.length < 2 → segmentsView (some d) = [])
    ∧ (dGet d "bookings" (.vList []) = .vList [] →
        ∀ r ∈ segmentsView (some d), r.used = 0) := by
  rw [segmentsView_some, hstops]
  by_cases hl : xs.length < 2
  · rw [segmentsCore_short _ _ _ hl]
    exact ⟨by simp; omega, fun k hk => absurd hk (by omega),
      fun _ => rfl, fun _ r hr => absurd hr (List.not_mem_nil r)⟩
  · rw [segmentsCore_eq _ _ _ hl]
    refine ⟨by simp, fun k hk => ?_, fun h2 => absurd h2 hl, fun hb r hr => ?_⟩
    · rw [List.getElem?_map, List.getElem?_range hk]
      rfl
    · rw [hb] at hr
      obtain ⟨k, hk, rfl⟩ := List.mem_map.mp hr
      rfl

/-- Witness for C2: the shape theorem applied to a concrete three-stop trip
with no bookings. -/
theorem output_shape_and_order_witness :
    (segmentsView (some noBookTrip)).length = 3 - 1
    ∧ (∀ k, k < 3 - 1 →
        ((segmentsView (some noBookTrip))[k]?).map (fun r => (r.fromStop, r.toStop)) =
          some ([Value.vStr "A", Value.vStr "B", Value.vStr "C"].getD k .vNull,
            [Value.vStr "A", Value.vStr "B", Value.vStr "C"].getD (k + 1) .vNull))
    ∧ (3 < 2 → segmentsView (some noBookTrip) = [])
    ∧ (dGet noBookTrip "bookings" (.vList []) = .vList [] →
        ∀ r ∈ segmentsView (some noBookTrip), r.used = 0) := by
  have h := output_shape_and_order noBookTrip
    [Value.vStr "A", Value.vStr "B", Value.vStr "C"] rfl
  simpa using h

/-- `free = max(0, capacity - used) if capacity else 0` agrees with the
spec's clamped formula: positive capacity subtracts and clamps at zero;
zero or negative capacity reports zero free seats; never negative. -/
theorem freeOf_spec (c : Int) (u : Nat) :
    0 ≤ freeOf c u ∧ freeOf c u = (if 0 < c then max 0 (c - (u : Int)) else 0) := by
  by_cases hc : c = 0
  · simp [freeOf, hc]
  · rcases lt_or_gt_of_ne hc with hneg | hpos
    · have h1 : c - (u : Int) ≤ 0 := by omega
      have : ¬ 0 < c := by omega
      simp [freeOf, hc, this, max_eq_left h1]
    · simp [freeOf, hc, hpos, le_max_left]

/-- **C3.** Every output row satisfies `free = max(0, capacity - used)` when
the parsed capacity is positive and `free = 0` otherwise (zero, negative, and
— through `capacityOf`, which yields 0 on absent or unparsable fields — any
degenerate capacity); in particular `free` is never negative, and an
unparsable capacity string parses to 0. -/
theorem free_seats_clamped (d : PyDict) (i : Nat) (r : Row)
    (hr : (segmentsView (some d))[i]? = some r) :
    0 ≤ r.free
    ∧ r.free = (if 0 < capacityOf d then max 0 (capacityOf d - (r.used : Int)) else 0)
    ∧ (∀ s : String, s.trim.toInt? = none → capValue (.vStr s) = 0) := by
  rw [segmentsView_some] at hr
  have hfree : r.free = freeOf (capacityOf d) r.used := by
    cases hsv : dGet d "stops" (.vList [])
    case vList xs =>
      rw [hsv] at hr
      by_cases hl : xs.length < 2
      · rw [segmentsCore_short _ _ _ hl] at hr
        cases hr
      · rw [segmentsCore_eq _ _ _ hl, List.getElem?_map] at hr
        obtain ⟨k, hk, rfl⟩ := Option.map_eq_some'.mp hr
        rfl
    all_goals (rw [hsv] at hr; cases hr)
  obtain ⟨h1, h2⟩ := freeOf_spec (capacityOf d) r.used
  refine ⟨hfree ▸ h1, hfree ▸ h2, fun s hs => ?_⟩
  by_cases he : s = ""
  · simp [capValue, pyTruthy, pyInt, he]
  · simp [capValue, pyTruthy, pyInt, he, hs]

/-- Witness for C3: capacity 2 with `used = 5` reports `free = 0`. -/
theorem free_seats_clamped_witness :
    (segmentsView (some overTrip))[0]? =
      some { fromStop := .vStr "A", toStop := .vStr "B", used := 5, free := 0 }
    ∧ 0 ≤ (0 : Int)
    ∧ (0 : Int) = (if 0 < capacityOf overTrip
        then max 0 (capacityOf overTrip - ((5 : Nat) : Int)) else 0) :=
  ⟨rfl, (free_seats_clamped overTrip 0 _ rfl).1,
    (free_seats_clamped overTrip 0 _ rfl).2.1⟩

/-- **C4.** A booking that the loop skips — `bookingRange` is `none` exactly
when the record is not a dict, when `from` or `to` does not resolve in the
name-to-index lookup, or when both resolve to the same position — changes
nothing: removing it from the bookings list yields the identical output, so it
contributes `used = 0` to every segment while the remaining bookings are still
counted, and no error is raised (the embedding is a total function). -/
theorem unresolvable_booking_excluded (xs bs₁ bs₂ : List Value) (b : Value)
    (cap : Int) (hb : bookingRange (idxMap xs) b = none) :
    segmentsCore (.vList xs) (.vList (bs₁ ++ b :: bs₂)) cap
      = segmentsCore (.vList xs) (.vList (bs₁ ++ bs₂)) cap := by
  have hr : retainedRanges xs (bs₁ ++ b :: bs₂) = retainedRanges xs (bs₁ ++ bs₂) := by
    unfold retainedRanges
    rw [List.filterMap_append, List.filterMap_append, List.filterMap_cons_none hb]
  by_cases hl : xs.length < 2
  · rw [segmentsCore_short _ _ _ hl, segmentsCore_short _ _ _ hl]
  · rw [segmentsCore_eq _ _ _ hl, segmentsCore_eq _ _ _ hl]
    rw [show asList (.vList (bs₁ ++ b :: bs₂)) = bs₁ ++ b :: bs₂ from rfl,
      show asList (.vList (bs₁ ++ bs₂)) = bs₁ ++ bs₂ from rfl, hr]

/-- Witness for C4: a booking to the unknown stop `Z` is skipped while the
surviving `A → B` booking is still counted (`used = [1, 0]`). -/
theorem unresolvable_booking_excluded_witness :
    bookingRange (idxMap abcStops) (.vDict [("from", .vStr "Z"), ("to", .vStr "B")]) = none
    ∧ segmentsCore (.vList abcStops)
        (.vList [.vDict [("from", .vStr "A"), ("to", .vStr "B")],
          .vDict [("from", .vStr "Z"), ("to", .vStr "B")]]) 4
      = segmentsCore (.vList abcStops)
        (.vList [.vDict [("from", .vStr "A"), ("to", .vStr "B")]]) 4
    ∧ (segmentsCore (.vList abcStops)
        (.vList [.vDict [("from", .vStr "A"), ("to", .vStr "B")],
          .vDict [("from", .vStr "Z"), ("to", .vStr "B")]]) 4).map Row.used = [1, 0] :=
  ⟨rfl,
    unresolvable_booking_excluded abcStops
      [.vDict [("from", .vStr "A"), ("to", .vStr "B")]] []
      (.vDict [("from", .vStr "Z"), ("to", .vStr "B")]) 4 rfl,
    rfl⟩

/-- **C5 counterexample.** With stops `[A, B, A]` the first occurrence of `A`
is position 0, but the dict comprehension `\x7bstr(s): i for i, s in
enumerate(stops)\x7d` lets the later binding overwrite the earlier one, so the
lookup resolves `A` to position 2, not 0; observably, a booking `A → B` then
spans `[1, 2)` and loads segment 1 instead of segment 0. -/
theorem first_occurrence_lookup_refuted :
    lookupIdx (idxMap dupStops) "A" = some 2
    ∧ some (2 : Nat) ≠ some 0
    ∧ (segmentsCore (.vList dupStops)
        (.vList [.vDict [("from", .vStr "A"), ("to", .vStr "B")]]) 0).map Row.used
      = [0, 1] := by
  refine ⟨rfl, by decide, rfl⟩

/-- **C5 (amended).** When the stop list contains a repeated stop name, the
name-to-index lookup resolves that name to its *last* occurrence (the later
binding of the dict comprehension overwrites the earlier one), and the
computation does not crash on the repeated entries (the embedding is total):
if `x`'s name does not recur among the stops after it, the lookup resolves it
to exactly its own position. -/
theorem last_occurrence_lookup (pre post : List Value) (x : Value)
    (h : pyStr x ∉ post.map pyStr) :
    lookupIdx (idxMap (pre ++ x :: post)) (pyStr x) = some pre.length := by
  unfold lookupIdx idxMap
  rw [List.enum_append, List.enumFrom_cons, List.map_append, List.map_cons,
    List.reverse_append, List.reverse_cons, List.find?_append, List.find?_append]
  have hnone :
      List.find? (fun p => p.1 == pyStr x)
        ((List.enumFrom (pre.length + 1) post).map
          (fun p => (pyStr p.2, p.1))).reverse = none := by
    rw [List.find?_eq_none]
    intro q hq
    rw [List.mem_reverse, List.mem_map] at hq
    obtain ⟨⟨i, a⟩, hmem, rfl⟩ := hq
    obtain ⟨-, -, ha⟩ := List.mem_enumFrom hmem
    simp only [beq_iff_eq]
    intro hqa
    exact h (List.mem_map.mpr ⟨a, ha ▸ List.getElem_mem _, hqa⟩)
  rw [hnone, Option.none_or, List.find?_cons_of_pos _ (by simp)]
  rfl

/-- Witness for C5 (amended): in `[A, B, A]` the name `A` (the last
occurrence, position 2, with nothing after it) resolves to 2. -/
theorem last_occurrence_lookup_witness :
    pyStr (Value.vStr "A") ∉ ([] : List Value).map pyStr
    ∧ lookupIdx (idxMap ([.vStr "A", .vStr "B"] ++ .vStr "A" :: [])) (pyStr (.vStr "A"))
      = some 2 :=
  ⟨by simp, last_occurrence_lookup [.vStr "A", .vStr "B"] [] (.vStr "A") (by simp)⟩

/-- Reading `from` out of a swapped booking reads the original `to`. -/
theorem dGet_swap_from (kvs : PyDict) (dflt : Value) :
    dGet (kvs.map (fun p => (swapKey p.1, p.2))) "from" dflt = dGet kvs "to" dflt := by
  unfold dGet
  rw [← List.map_reverse, List.find?_map]
  have hpred : ((fun p : String × Value => p.1 == "from") ∘
      (fun p : String × Value => (swapKey p.1, p.2)))
      = (fun p : String × Value => p.1 == "to") := by
    funext p
    by_cases h1 : p.1 = "from"
    · simp [swapKey, h1]
    · by_cases h2 : p.1 = "to"
      · simp [swapKey, h1, h2]
      · simp [swapKey, h1, h2]
  rw [hpred]
  cases List.find? (fun p : String × Value => p.1 == "to") kvs.reverse <;> rfl

/-- Reading `to` out of a swapped booking reads the original `from`. -/
theorem dGet_swap_to (kvs : PyDict) (dflt : Value) :
    dGet (kvs.map (fun p => (swapKey p.1, p.2))) "to" dflt = dGet kvs "from" dflt := by
  unfold dGet
  rw [← List.map_reverse, List.find?_map]
  have hpred : ((fun p : String × Value => p.1 == "to") ∘
      (fun p : String × Value => (swapKey p.1, p.2)))
      = (fun p : String × Value => p.1 == "from") := by
    funext p
    by_cases h1 : p.1 = "from"
    · simp [swapKey, h1]
    · by_cases h2 : p.1 = "to"
      · simp [swapKey, h1, h2]
      · simp [swapKey, h1, h2]
  rw [hpred]
  cases List.find? (fun p : String × Value => p.1 == "from") kvs.reverse <;> rfl

/-- A swapped booking resolves to the same normalized interval: the loop
takes `(min i j, max i j)`, which is symmetric in the two indices. -/
theorem bookingRange_swapFT (m : List (String × Nat)) (b : Value) :
    bookingRange m (swapFT b) = bookingRange m b := by
  cases b with
  | vDict kvs =>
      simp only [swapFT, bookingRange]
      rw [dGet_swap_from, dGet_swap_to]
      cases h1 : lookupIdx m (pyStr (dGet kvs "from" (.vStr ""))) with
      | none =>
          cases lookupIdx m (pyStr (dGet kvs "to" (.vStr ""))) <;> rfl
      | some i =>
          cases h2 : lookupIdx m (pyStr (dGet kvs "to" (.vStr ""))) with
          | none => rfl
          | some j =>
              by_cases hij : i = j
              · simp [hij]
              · simp [hij, Ne.symm hij, min_comm, max_comm]
  | vNull => rfl
  | vBool b => rfl
  | vInt n => rfl
  | vStr s => rfl
  | vList xs => rfl

/-- **C6.** Booking direction is irrelevant: for every stop list, capacity,
and booking list, replacing any one booking by the booking with its `from` and
`to` fields exchanged yields identical occupancy output, because each retained
booking is normalized to `[min(idxFrom, idxTo), max(idxFrom, idxTo))`. -/
theorem booking_direction_irrelevant (xs bs₁ bs₂ : List Value) (b : Value)
    (cap : Int) :
    segmentsCore (.vList xs) (.vList (bs₁ ++ swapFT b :: bs₂)) cap
      = segmentsCore (.vList xs) (.vList (bs₁ ++ b :: bs₂)) cap := by
  have hr : retainedRanges xs (bs₁ ++ swapFT b :: bs₂)
      = retainedRanges xs (bs₁ ++ b :: bs₂) := by
    unfold retainedRanges
    rw [List.filterMap_append, List.filterMap_append,
      List.filterMap_cons, List.filterMap_cons, bookingRange_swapFT]
  by_cases hl : xs.length < 2
  · rw [segmentsCore_short _ _ _ hl, segmentsCore_short _ _ _ hl]
  · rw [segmentsCore_eq _ _ _ hl, segmentsCore_eq _ _ _ hl]
    rw [show asList (.vList (bs₁ ++ swapFT b :: bs₂)) = bs₁ ++ swapFT b :: bs₂ from rfl,
      show asList (.vList (bs₁ ++ b :: bs₂)) = bs₁ ++ b :: bs₂ from rfl, hr]

/-- Every list is obtained by filtering out the elements on which `f` fails
and then collecting `f`; dropping the skipped bookings changes nothing. -/
theorem filterMap_filter_isSome {α β : Type} (f : α → Option β) (l : List α) :
    (l.filter (fun x => (f x).isSome)).filterMap f = l.filterMap f := by
  induction l with
  | nil => rfl
  | cons x l ih =>
      cases h : f x with
      | none => simp [List.filter_cons, List.filterMap_cons, h, ih]
      | some y => simp [List.filter_cons, List.filterMap_cons, h, ih]

/-- **C7.** The calculator never fails and degrades by exclusion: it is a
total function on every trip value (every Python exception path of the source
is modelled as a skip or a default), and its output on any bookings value
equals its output on the sublist of bookings it can resolve — unresolvable
data is omitted, never an error. -/
theorem never_fails_degrade_by_exclusion (xs : List Value) (bv : Value)
    (cap : Int) :
    segmentsCore (.vList xs)
        (.vList ((asList bv).filter (fun b => (bookingRange (idxMap xs) b).isSome))) cap
      = segmentsCore (.vList xs) bv cap := by
  apply segmentsCore_ranges_congr
  show retainedRanges xs ((asList bv).filter (fun b => (bookingRange (idxMap xs) b).isSome))
    = retainedRanges xs (asList bv)
  unfold retainedRanges
  exact filterMap_filter_isSome _ _

/-- **C8.** The calculator is deterministic and pure: its output depends only
on the `stops`, `bookings` and `capacity` fields of the trip dict — two trip
dicts agreeing on those three reads (whatever other keys, order, or junk they
hold) produce identical output, and in particular two invocations on the same
trip are identical. -/
theorem pure_deterministic_extensional (d₁ d₂ : PyDict)
    (hs : dGet d₁ "stops" (.vList []) = dGet d₂ "stops" (.vList []))
    (hb : dGet d₁ "bookings" (.vList []) = dGet d₂ "bookings" (.vList []))
    (hc : dGet d₁ "capacity" (.vInt 0) = dGet d₂ "capacity" (.vInt 0)) :
    segmentsView (some d₁) = segmentsView (some d₂) := by
  rw [segmentsView_some, segmentsView_some, hs, hb]
  unfold capacityOf
  rw [hc]

/-- Witness for C8: the trip dict with reordered entries and an extra key
yields the identical output. -/
theorem pure_deterministic_extensional_witness :
    dGet noBookTrip "stops" (.vList []) = dGet noBookTripShuffled "stops" (.vList [])
    ∧ segmentsView (some noBookTrip) = segmentsView (some noBookTripShuffled) :=
  ⟨rfl, pure_deterministic_extensional noBookTrip noBookTripShuffled rfl rfl rfl⟩

/-- **C9.** If the trip's `stops` field is not a list (a string, a number,
`None`, a dict, ...), the calculator produces an empty occupancy table,
exactly as for a list of fewer than 2 stops. -/
theorem non_list_stops_empty_table (d : PyDict)
    (h : pyIsList (dGet d "stops" (.vList [])) = false) :
    segmentsView (some d) = [] := by
  rw [segmentsView_some]
  cases hsv : dGet d "stops" (.vList [])
  case vList xs => rw [hsv] at h; cases h
  all_goals rfl

/-- Witness for C9: a string-valued `stops` field yields no rows. -/
theorem non_list_stops_empty_table_witness :
    pyIsList (dGet strStopsTrip "stops" (.vList [])) = false
    ∧ segmentsView (some strStopsTrip) = [] :=
  ⟨rfl, non_list_stops_empty_table strStopsTrip rfl⟩

/-- **C10.** If the trip's `bookings` field is not a list it is treated as an
empty booking list: the output equals the output for `bookings = []`, and for
a stop list of length `n ≥ 2` the calculator still emits `n - 1` segments,
each with `used = 0`. -/
theorem non_list_bookings_empty (d : PyDict) (xs : List Value)
    (hstops : dGet d "stops" (.vList []) = .vList xs)
    (hbook : pyIsList (dGet d "bookings" (.vList [])) = false) :
    segmentsView (some d) = segmentsCore (.vList xs) (.vList []) (capacityOf d)
    ∧ (2 ≤ xs.length → (segmentsView (some d)).length = xs.length - 1
        ∧ ∀ r ∈ segmentsView (some d), r.used = 0) := by
  have hnil : asList (dGet d "bookings" (.vList [])) = asList (.vList []) := by
    cases hbv : dGet d "bookings" (.vList [])
    case vList xs => rw [hbv] at hbook; cases hbook
    all_goals rfl
  have hmain : segmentsView (some d) = segmentsCore (.vList xs) (.vList []) (capacityOf d) := by
    rw [segmentsView_some, hstops]
    exact segmentsCore_bookings_eq _ _ _ _ hnil
  refine ⟨hmain, fun h2 => ?_⟩
  rw [hmain, segmentsCore_eq _ _ _ (by omega)]
  constructor
  · simp
  · intro r hr
    obtain ⟨k, hk, rfl⟩ := List.mem_map.mp hr
    rfl

/-- Witness for C10: a string-valued `bookings` field behaves as an empty
booking list over three stops, giving two segments with `used = 0`. -/
theorem non_list_bookings_empty_witness :
    pyIsList (dGet strBookingsTrip "bookings" (.vList [])) = false
    ∧ segmentsView (some strBookingsTrip)
        = segmentsCore (.vList [.vStr "A", .vStr "B", .vStr "C"]) (.vList [])
          (capacityOf strBookingsTrip)
    ∧ (segmentsView (some strBookingsTrip)).map Row.used = [0, 0] :=
  ⟨rfl,
    (non_list_bookings_empty strBookingsTrip [.vStr "A", .vStr "B", .vStr "C"] rfl rfl).1,
    rfl⟩
